import Mathlib

/-!
Verification of the SaneProcess reporting scripts.

This file gives a shallow embedding of the two reporting scripts
(`scripts/automation/ls-sales.py` and `scripts/automation/dl-report.py`)
and proves or refutes the specification claims about them.

Modelling conventions:
* Python floats are modelled as exact rationals (ℚ); the spec's fee formula
  is stated over exact arithmetic.
* An aware `datetime` is modelled by its wall-clock fields (`PyDateTime`)
  together with a UTC offset where needed; comparison of aware datetimes in
  Python compares the underlying instants, so comparisons are made through
  `wallUs` (microseconds on the proleptic Gregorian timeline, via the
  standard civil-from-days day count).
* A calendar-day string `strftime("%Y-%m-%d")` of a UTC datetime is modelled
  by the UTC day number of its instant (`strfDay`); this is injective on real
  dates, so string equality corresponds to day-number equality.
* A JSON dictionary field that may be absent is an outer `Option`; a field
  that may be present but `null` is an inner `Option`.
-/

namespace SaneProcess

/-- Microseconds per day; `timedelta(days=1)` on an aware datetime shifts the
instant by exactly this amount. -/
def usPerDay : Int := 86400000000

/-- Wall-clock fields of a Python `datetime` (year, month, day, hour, minute,
second, microsecond). -/
structure PyDateTime where
  year : Int
  month : Int
  day : Int
  hour : Int
  minute : Int
  second : Int
  micro : Int
deriving DecidableEq

/-- Day count of a civil date (proleptic Gregorian, days since 1970-01-01),
the standard civil-from-days algorithm. -/
def daysFromCivil (y m d : Int) : Int :=
  let y := if m ≤ 2 then y - 1 else y
  let era := y.ediv 400
  let yoe := y - era * 400
  let mp := (m + 9).emod 12
  let doy := (153 * mp + 2).ediv 5 + d - 1
  let doe := yoe * 365 + yoe.ediv 4 - yoe.ediv 100 + doy
  era * 146097 + doe - 719468

/-- Microseconds since midnight for the time-of-day fields. -/
def timeOfDayUs (t : PyDateTime) : Int :=
  ((t.hour * 60 + t.minute) * 60 + t.second) * 1000000 + t.micro

/-- Instant of a wall-clock datetime read at UTC offset zero, in microseconds
since the epoch.  For a datetime at offset `off` microseconds the instant is
`wallUs t - off`. -/
def wallUs (t : PyDateTime) : Int :=
  daysFromCivil t.year t.month t.day * usPerDay + timeOfDayUs t

namespace LsSales

/-- The `first_order_item` object of an order.  Each field is `none` when the
key is absent from the JSON object, `some none` when it is present but
`null`, and `some (some s)` when it is a string. -/
structure OrderItem where
  product_name : Option (Option String)
  variant_name : Option (Option String)
deriving DecidableEq

/-- An order's `attributes` object as used by `ls-sales.py`:
`created_at` is kept as the parsed instant (microseconds since epoch, UTC),
`subtotal_usd` is in cents, and `first_order_item` is `none` when the key is
absent or `null` (Python's `a.get("first_order_item") or {}` treats both the
same way). -/
structure Order where
  created : Int
  status : String
  subtotal_usd : Int
  currency : String
  first_order_item : Option OrderItem
deriving DecidableEq

/-- Embedding of `calc_fee(subtotal, currency)`:
`base = subtotal * 0.05 + 0.50`; `intl = subtotal * 0.015 if currency != "USD"
else 0`; returns `(base + intl, intl)`. -/
def calc_fee (subtotal : ℚ) (currency : String) : ℚ × ℚ :=
  let base := subtotal * 0.05 + 0.50
  let intl := if currency ≠ "USD" then subtotal * 0.015 else 0
  (base + intl, intl)

/-- The subtotal in dollars: `a.get("subtotal_usd", 0) / 100`. -/
def subtotalQ (o : Order) : ℚ := (o.subtotal_usd : ℚ) / 100

/-- The aggregate quantities computed by `print_fees(orders)`. -/
structure FeeBreakdown where
  total_revenue : ℚ
  total_intl : ℚ
  paid_count : Int
  platform_pct : ℚ
  flat_fee : ℚ
  total_fees : ℚ
deriving DecidableEq

/-- One step of the accumulation loop in `print_fees`: adds the order's
subtotal, its international fee component, and one to the count. -/
def feesStep (a : ℚ × ℚ × Int) (o : Order) : ℚ × ℚ × Int :=
  (a.1 + subtotalQ o, a.2.1 + (calc_fee (subtotalQ o) o.currency).2, a.2.2 + 1)

/-- Embedding of the aggregate computation in `print_fees(orders)`:
`platform_pct = total_revenue * 0.05`, `flat_fee = paid_count * 0.50`,
`total_fees = platform_pct + flat_fee + total_intl`. -/
def print_fees (orders : List Order) : FeeBreakdown :=
  let acc := orders.foldl feesStep (0, 0, 0)
  let platform := acc.1 * 0.05
  let flat := (acc.2.2 : ℚ) * 0.50
  { total_revenue := acc.1
    total_intl := acc.2.1
    paid_count := acc.2.2
    platform_pct := platform
    flat_fee := flat
    total_fees := platform + flat + acc.2.1 }

/-- The argument flags consumed by `filter_orders`: `--month` is a boolean
flag; `--days N` is `some N` when given and `none` otherwise. -/
structure Args where
  month : Bool
  days : Option Int
deriving DecidableEq

/-- The cutoff instant computed at the top of `filter_orders`:
`--month` is checked first and yields the first instant of the current
calendar month (`now.replace(day=1, hour=0, minute=0, second=0,
microsecond=0)`); otherwise `elif args.days:` applies Python integer
truthiness, so `days = 0` behaves like an absent flag and a nonzero `N`
yields `now - timedelta(days=N)`. -/
def cutoffUs (now : PyDateTime) (args : Args) : Option Int :=
  if args.month then
    some (wallUs { now with day := 1, hour := 0, minute := 0, second := 0, micro := 0 })
  else
    match args.days with
    | some n => if n = 0 then none else some (wallUs now - n * usPerDay)
    | none => none

/-- Embedding of `filter_orders(orders, args)`: keep orders whose status is
`"paid"` and, when a cutoff exists, whose `created_at` instant is not before
the cutoff. -/
def filter_orders (orders : List Order) (args : Args) (now : PyDateTime) : List Order :=
  orders.filter fun o =>
    o.status == "paid" &&
      match cutoffUs now args with
      | some c => decide (c ≤ o.created)
      | none => true

/-- Modelled from the claim text, for comparison with `filter_orders`: the
cutoff is `now - N days` whenever `days = N` is given, with no special case
for `N = 0`. -/
def claimCutoffUs (now : PyDateTime) (args : Args) : Option Int :=
  if args.month then
    some (wallUs { now with day := 1, hour := 0, minute := 0, second := 0, micro := 0 })
  else
    match args.days with
    | some n => some (wallUs now - n * usPerDay)
    | none => none

/-- Modelled from the claim text: the filter as the claim describes it,
retaining an order iff it is paid and meets the claimed cutoff. -/
def claim_filter_orders (orders : List Order) (args : Args) (now : PyDateTime) : List Order :=
  orders.filter fun o =>
    o.status == "paid" &&
      match claimCutoffUs now args with
      | some c => decide (c ≤ o.created)
      | none => true

/-- A concrete run instant, 2024-06-15 12:00:00 UTC. -/
def c2Now : PyDateTime := ⟨2024, 6, 15, 12, 0, 0, 0⟩

/-- A paid order created one day before `c2Now`. -/
def c2Order : Order :=
  { created := wallUs c2Now - usPerDay
    status := "paid"
    subtotal_usd := 1000
    currency := "USD"
    first_order_item := none }

/-- The flag combination `--days 0`. -/
def c2Args : Args := { month := false, days := some 0 }

/-- One metric triple of a `print_daily` bucket in `ls-sales.py`. -/
structure DailyB where
  orders : Int
  revenue : ℚ
  fees : ℚ
deriving DecidableEq

/-- Add one order's subtotal and fee into a bucket. -/
def DailyB.add (b : DailyB) (sub fee : ℚ) : DailyB :=
  { orders := b.orders + 1, revenue := b.revenue + sub, fees := b.fees + fee }

/-- The four buckets of `print_daily` in `ls-sales.py`. -/
structure DailyBuckets where
  today : DailyB
  yesterday : DailyB
  week : DailyB
  alltime : DailyB
deriving DecidableEq

/-- The empty metric triple. -/
def emptyB : DailyB := ⟨0, 0, 0⟩

/-- One iteration of the loop in `print_daily`: skip non-paid orders; always
add to All Time; add to This Week when `created >= week_start`; add to Today
when `created >= today_start`, else to Yesterday when
`created >= yesterday_start`.  `ts`, `ys`, `ws` are the instants of
`today_start`, `yesterday_start`, `week_start`. -/
def dailyStep (ts ys ws : Int) (b : DailyBuckets) (o : Order) : DailyBuckets :=
  if o.status ≠ "paid" then b
  else
    let sub := subtotalQ o
    let fee := (calc_fee sub o.currency).1
    let b1 := { b with alltime := b.alltime.add sub fee }
    let b2 := if ws ≤ o.created then { b1 with week := b1.week.add sub fee } else b1
    if ts ≤ o.created then { b2 with today := b2.today.add sub fee }
    else if ys ≤ o.created then { b2 with yesterday := b2.yesterday.add sub fee }
    else b2

/-- The instant of `now.replace(hour=0, minute=0, second=0, microsecond=0)`
where `now = datetime.now().astimezone()` is the local wall clock `w` at
fixed UTC offset `off` microseconds. -/
def todayStartUs (w : PyDateTime) (off : Int) : Int :=
  wallUs { w with hour := 0, minute := 0, second := 0, micro := 0 } - off

/-- Embedding of `print_daily(all_orders)` in `ls-sales.py`:
`today_start` is local midnight, `yesterday_start = today_start - 1 day`,
`week_start = today_start - 7 days`; all comparisons are between instants. -/
def print_daily (w : PyDateTime) (off : Int) (orders : List Order) : DailyBuckets :=
  let ts := todayStartUs w off
  orders.foldl (dailyStep ts (ts - usPerDay) (ts - 7 * usPerDay))
    ⟨emptyB, emptyB, emptyB, emptyB⟩

/-- Python's `a.get("first_order_item") or {}`: an absent or `null` item
becomes the empty dict, i.e. an item with both keys absent. -/
def item_or_empty (o : Order) : OrderItem := o.first_order_item.getD ⟨none, none⟩

/-- Python's `item.get("product_name", "Unknown")`: the default applies only
when the key is absent; a key that is present but `null` yields Python
`None` (`none` here). -/
def product_name_get (item : OrderItem) : Option String :=
  match item.product_name with
  | none => some "Unknown"
  | some v => v

/-- Python's `item.get("variant_name") or "Default"`: an absent key, a
`null` value and an empty string are all falsy and become `"Default"`. -/
def variant_name_get (item : OrderItem) : String :=
  match item.variant_name with
  | some (some s) => if s = "" then "Default" else s
  | _ => "Default"

/-- Python `str()` of a string-or-None value as interpolated by an f-string. -/
def pyStr : Option String → String
  | none => "None"
  | some s => s

/-- The dictionary key used by `print_products` for an order. -/
def product_key (o : Order) : Option String := product_name_get (item_or_empty o)

/-- The dictionary key `f"{product} | {variant}"` used by
`print_product_variants` for an order. -/
def variant_key (o : Order) : String :=
  pyStr (product_name_get (item_or_empty o)) ++ " | " ++ variant_name_get (item_or_empty o)

/-- The keys of the `products` dict built by `print_products`, in insertion
order. -/
def productKeys (orders : List Order) : List (Option String) :=
  orders.foldl (fun ks o => if product_key o ∈ ks then ks else ks ++ [product_key o]) []

/-- The slice `name[:29]` applied to a product key when printing a row of
`print_products`: slicing Python `None` raises `TypeError`. -/
def formatProductLabel : Option String → Except String String
  | none => Except.error "TypeError"
  | some s => Except.ok (s.take 29)

/-- The label column of `print_products`: each dict key is sliced to 29
characters; the first `None` key raises.  (The sort of the keys by revenue
only permutes which label is formatted first and cannot avoid the error, so
it is omitted here.) -/
def printProductsLabels (orders : List Order) : Except String (List String) :=
  (productKeys orders).mapM formatProductLabel

/-- An order whose `first_order_item` is present with `product_name: null`
and no `variant_name` key. -/
def c5Order : Order :=
  { created := 0
    status := "paid"
    subtotal_usd := 1000
    currency := "USD"
    first_order_item := some ⟨some none, none⟩ }

/-- An order with no `first_order_item` at all. -/
def c5OrderAbsent : Order :=
  { created := 0
    status := "paid"
    subtotal_usd := 1000
    currency := "USD"
    first_order_item := none }

/-- The pagination loop of `fetch_orders`.  Each element of `pages` is one
parsed response body: `none` models a body that fails JSON parsing
(`json.JSONDecodeError`, which prints an error and breaks the loop,
returning the orders accumulated so far); `some pg` models a parsed body
whose `data` list is `pg` (a body without a `data` key parses to `some []`).
A page with fewer than 50 orders is the last page. -/
def fetchPages : List (Option (List Order)) → List Order → List Order
  | [], acc => acc
  | none :: _, acc => acc
  | some pg :: rest, acc =>
    if pg.length < 50 then acc ++ pg else fetchPages rest (acc ++ pg)

/-- Embedding of `fetch_orders(api_key)` over the sequence of page bodies the
server returns. -/
def fetch_orders (pages : List (Option (List Order))) : List Order :=
  fetchPages pages []

end LsSales

namespace DlReport

/-- One row of the stats API response as used by `dl-report.py`.  The
`date` string `"%Y-%m-%d"` is modelled by its UTC day number (formatting a
real date is injective, so string equality is day-number equality). -/
structure Row where
  date : Int
  app : String
  version : String
  source : String
  count : Int
deriving DecidableEq

/-- One event row of the stats API response. -/
structure EventRow where
  date : Int
  event : String
  count : Int
deriving DecidableEq

/-- The parsed JSON payload returned by the stats endpoint. -/
structure Stats where
  rows : List Row
  events : List EventRow
deriving DecidableEq

/-- Embedding of `fetch_stats`: a body that fails JSON parsing prints an
error to stderr and calls `sys.exit(1)`, modelled as `Except.error` carrying
the message; a parsed body is returned. -/
def fetch_stats (body : Option Stats) : Except String Stats :=
  match body with
  | none => Except.error "Error: Bad API response"
  | some d => Except.ok d

/-- The UTC calendar day of an instant, modelling
`datetime.strftime("%Y-%m-%d")` of a UTC datetime as its day number. -/
def strfDay (t : Int) : Int := t / usPerDay

/-- `today = now.strftime("%Y-%m-%d")` for the UTC instant `now`. -/
def todayD (now : Int) : Int := strfDay now

/-- `yesterday = (now - timedelta(days=1)).strftime("%Y-%m-%d")`. -/
def yesterdayD (now : Int) : Int := strfDay (now - usPerDay)

/-- `week_dates = {(now - timedelta(days=i)).strftime("%Y-%m-%d") for i in
range(7)}`. -/
def weekDates (now : Int) : List Int :=
  (List.range 7).map (fun i : Nat => strfDay (now - (i : Int) * usPerDay))

/-- A `defaultdict(int)` update: add `c` at key `k`; absent keys read 0. -/
def bump (f : String → Int) (k : String) (c : Int) : String → Int :=
  fun s => if s = k then f s + c else f s

/-- The paired update `bucket[source] += count; bucket["total"] += count`. -/
def bump2 (f : String → Int) (source : String) (c : Int) : String → Int :=
  bump (bump f source c) "total" c

/-- The four window buckets of `print_daily` in `dl-report.py`; each is a
`defaultdict(int)` keyed by source name plus the synthetic `"total"`. -/
structure Buckets where
  today : String → Int
  yesterday : String → Int
  week : String → Int
  window : String → Int

/-- One iteration of the loop in `print_daily`: the rolling-window bucket is
updated unconditionally, This Week on membership in `week_dates`, Today on
exact match with today's date, else Yesterday on exact match with
yesterday's date. -/
def dailyStep (now : Int) (b : Buckets) (r : Row) : Buckets :=
  let b1 := { b with window := bump2 b.window r.source r.count }
  let b2 :=
    if r.date ∈ weekDates now then { b1 with week := bump2 b1.week r.source r.count } else b1
  if r.date = todayD now then { b2 with today := bump2 b2.today r.source r.count }
  else if r.date = yesterdayD now then
    { b2 with yesterday := bump2 b2.yesterday r.source r.count }
  else b2

/-- Embedding of `print_daily(rows, window_days)` in `dl-report.py` (the
`window_days` argument only names the rolling bucket; it does not filter). -/
def print_daily (now : Int) (rows : List Row) : Buckets :=
  rows.foldl (dailyStep now) ⟨fun _ => 0, fun _ => 0, fun _ => 0, fun _ => 0⟩

/-- Embedding of the aggregation in `print_by_app(rows)`: a dict of
`defaultdict(int)` keyed by app, each inner dict keyed by source plus
`"total"`. -/
def by_app (rows : List Row) : String → String → Int :=
  rows.foldl
    (fun m r => fun a => if a = r.app then bump2 (m a) r.source r.count else m a)
    (fun _ _ => 0)

/-- The dict key `f"{r['app']} {r['version']}"` used by `print_by_version`. -/
def versionKey (r : Row) : String := r.app ++ " " ++ r.version

/-- The keys of the `versions` dict in insertion order. -/
def versionKeys (rows : List Row) : List String :=
  rows.foldl (fun ks r => if versionKey r ∈ ks then ks else ks ++ [versionKey r]) []

/-- The accumulated `versions[key]["count"]` for a key. -/
def versionCount (rows : List Row) (k : String) : Int :=
  ((rows.filter (fun r => versionKey r = k)).map Row.count).sum

/-- The key list printed by `print_by_version`: keys sorted by total count
descending (`sorted(..., reverse=True)`, a stable sort), truncated to the
top 20. -/
def by_version (rows : List Row) : List String :=
  (List.insertionSort (fun a b => versionCount rows b ≤ versionCount rows a)
    (versionKeys rows)).take 20

/-- The source names of the stats data model. -/
def knownSources : List String := ["sparkle", "homebrew", "website", "unknown"]

/-- Sum of the counts of the rows satisfying a predicate. -/
def sumCounts (rows : List Row) (p : Row → Bool) : Int :=
  ((rows.filter p).map Row.count).sum

/-- A bucket whose `"total"` metric equals the sum of its per-source
sub-metrics (the four printed source columns). -/
def totOk (f : String → Int) : Prop :=
  f "total" = f "sparkle" + f "homebrew" + f "website" + f "unknown"

/-- A concrete run instant for counterexamples: noon UTC on day 19900. -/
def c3Now : Int := 19900 * usPerDay + 43200000000

/-- A download record dated exactly 7 calendar days before `c3Now`. -/
def c3Row : Row := { date := 19893, app := "sanebar", version := "1.0", source := "sparkle", count := 1 }

/-- 25 rows with pairwise distinct version keys and strictly decreasing
counts, for exercising the top-20 truncation. -/
def c8Rows : List Row :=
  (List.range 25).map
    (fun i => { date := 0, app := "app", version := toString i, source := "sparkle",
                count := (25 : Int) - i })

end DlReport

end SaneProcess

namespace SaneProcess

namespace LsSales

/-- The fee-accumulation fold computes componentwise sums. -/
theorem feesFold_eq (orders : List Order) : ∀ (a b : ℚ) (c : Int),
    orders.foldl feesStep (a, b, c) =
      (a + (orders.map subtotalQ).sum,
       b + (orders.map (fun o => (calc_fee (subtotalQ o) o.currency).2)).sum,
       c + orders.length) := by
  induction orders with
  | nil => intro a b c; simp
  | cons o rest ih =>
    intro a b c
    simp only [List.foldl_cons, feesStep, ih, List.map_cons, List.sum_cons, List.length_cons]
    refine Prod.ext (by ring) (Prod.ext (by ring) (by push_cast; ring))

end LsSales

/-- C1: `calc_fee` implements the spec formula
`platform = subtotal * 0.05 + 0.50`,
`international = subtotal * 0.015` for non-USD currencies and `0` for USD,
`total = platform + international`; in particular
`fee(100.00, "USD") = 5.50`, `fee(100.00, "EUR") = 7.00`, and
`fee(0, "USD") = 0.50`. -/
theorem C1_calc_fee_formula :
    (∀ (subtotal : ℚ) (currency : String),
        LsSales.calc_fee subtotal currency =
          ((subtotal * 0.05 + 0.50) +
             (if currency ≠ "USD" then subtotal * 0.015 else 0),
           if currency ≠ "USD" then subtotal * 0.015 else 0)) ∧
    LsSales.calc_fee 100 "USD" = (5.50, 0) ∧
    LsSales.calc_fee 100 "EUR" = (7, 1.50) ∧
    LsSales.calc_fee 0 "USD" = (0.50, 0) := by
  have hEUR : ("EUR" : String) ≠ "USD" := by decide
  refine ⟨fun s c => rfl, ?_, ?_, ?_⟩
  · norm_num [LsSales.calc_fee]
  · simp only [LsSales.calc_fee, if_pos hEUR]
    norm_num
  · norm_num [LsSales.calc_fee]

/-- C9: the aggregate fee total printed by the fee-breakdown view,
`(sum of subtotals) * 0.05 + (number of orders) * 0.50 + (sum of
international components)`, equals the sum of the per-order total fees
returned by `calc_fee`, under exact rational arithmetic. -/
theorem C9_print_fees_total_eq_sum_calc_fee (orders : List LsSales.Order) :
    (LsSales.print_fees orders).total_fees =
      (orders.map (fun o =>
        (LsSales.calc_fee (LsSales.subtotalQ o) o.currency).1)).sum := by
  rw [LsSales.print_fees]
  simp only [LsSales.feesFold_eq]
  induction orders with
  | nil => simp
  | cons o rest ih =>
    simp only [List.map_cons, List.sum_cons, List.length_cons] at *
    rw [LsSales.calc_fee]
    push_cast
    push_cast at ih
    ring_nf
    ring_nf at ih
    linarith [ih]

/-- C2 counterexample: with the flag combination `--days 0` the code applies
no cutoff (Python `elif args.days:` treats `0` as falsy) and retains a paid
order created one day earlier, while the claim's cutoff `now - 0 days = now`
would exclude it.  The code's filter and the claim's filter disagree at this
concrete input. -/
theorem C2_filter_orders_claim_counterexample :
    LsSales.filter_orders [LsSales.c2Order] LsSales.c2Args LsSales.c2Now = [LsSales.c2Order] ∧
    LsSales.claim_filter_orders [LsSales.c2Order] LsSales.c2Args LsSales.c2Now = [] := by
  constructor <;> decide

/-- C2 (amended): `filter_orders` retains an order iff its status is
`"paid"` and, when a cutoff exists, `created_at ≥ cutoff`, where the cutoff
is the first instant of the current calendar month (UTC) when the month flag
is set (checked first, taking precedence over days), `now - N` days when
`days = N` is set with `N ≠ 0`, and absent when neither is set or when
`days = 0` (integer truthiness makes `--days 0` behave like no filter).
Consequently, under the month filter an order at the last microsecond of the
previous month is excluded and one at the first instant of the current month
is included; under the rolling filter with `N ≠ 0` an order exactly `N` days
before now is included and one `N + 1` days before now is excluded. -/
theorem C2_filter_orders_amended :
    (∀ (orders : List LsSales.Order) (args : LsSales.Args) (now : PyDateTime)
        (o : LsSales.Order),
        o ∈ LsSales.filter_orders orders args now ↔
          o ∈ orders ∧ o.status = "paid" ∧
            (if args.month then
              wallUs ⟨now.year, now.month, 1, 0, 0, 0, 0⟩ ≤ o.created
            else
              match args.days with
              | some n => n = 0 ∨ wallUs now - n * usPerDay ≤ o.created
              | none => True)) ∧
    (∀ (now : PyDateTime) (o : LsSales.Order) (d : Option Int),
        o.status = "paid" →
        o.created = wallUs ⟨now.year, now.month, 1, 0, 0, 0, 0⟩ - 1 →
        LsSales.filter_orders [o] ⟨true, d⟩ now = []) ∧
    (∀ (now : PyDateTime) (o : LsSales.Order) (d : Option Int),
        o.status = "paid" →
        o.created = wallUs ⟨now.year, now.month, 1, 0, 0, 0, 0⟩ →
        LsSales.filter_orders [o] ⟨true, d⟩ now = [o]) ∧
    (∀ (now : PyDateTime) (o : LsSales.Order) (n : Int),
        n ≠ 0 → o.status = "paid" →
        o.created = wallUs now - n * usPerDay →
        LsSales.filter_orders [o] ⟨false, some n⟩ now = [o]) ∧
    (∀ (now : PyDateTime) (o : LsSales.Order) (n : Int),
        n ≠ 0 → o.status = "paid" →
        o.created = wallUs now - (n + 1) * usPerDay →
        LsSales.filter_orders [o] ⟨false, some n⟩ now = []) := by
  refine ⟨?_, ?_, ?_, ?_, ?_⟩
  · rintro orders ⟨m, d⟩ now o
    simp only [LsSales.filter_orders, LsSales.cutoffUs, List.mem_filter,
      Bool.and_eq_true, beq_iff_eq, decide_eq_true_eq]
    cases m with
    | true => simp
    | false =>
      cases d with
      | none => simp
      | some n =>
        by_cases hn : n = 0 <;> simp [hn]
  · intro now o d hs hc
    simp [LsSales.filter_orders, LsSales.cutoffUs, hs, hc, List.filter]
    try omega
  · intro now o d hs hc
    simp [LsSales.filter_orders, LsSales.cutoffUs, hs, hc, List.filter]
    try omega
  · intro now o n hn hs hc
    simp [LsSales.filter_orders, LsSales.cutoffUs, usPerDay, hn, hs, hc, List.filter]
    try omega
  · intro now o n hn hs hc
    simp [LsSales.filter_orders, LsSales.cutoffUs, usPerDay, hn, hs, hc, List.filter]
    have hlt : ¬ (wallUs now ≤ wallUs now - (n + 1) * 86400000000 + n * 86400000000) := by
      omega
    simp [hlt]

namespace LsSales

/-- Effect of one `print_daily` iteration on the order counters of the
Today, Yesterday and This Week buckets. -/
theorem dailyStep_orders (ts ys ws : Int) (b : DailyBuckets) (o : Order) :
    (dailyStep ts ys ws b o).today.orders =
        b.today.orders + (if o.status = "paid" ∧ ts ≤ o.created then 1 else 0) ∧
    (dailyStep ts ys ws b o).yesterday.orders =
        b.yesterday.orders +
          (if o.status = "paid" ∧ ¬ts ≤ o.created ∧ ys ≤ o.created then 1 else 0) ∧
    (dailyStep ts ys ws b o).week.orders =
        b.week.orders + (if o.status = "paid" ∧ ws ≤ o.created then 1 else 0) := by
  simp only [dailyStep, DailyB.add]
  split_ifs <;> simp_all

/-- The `print_daily` fold counts, in each of the Today, Yesterday and This
Week buckets, exactly the paid orders meeting that bucket's instant
comparison. -/
theorem dailyFold_orders (ts ys ws : Int) (orders : List Order) : ∀ b : DailyBuckets,
    (orders.foldl (dailyStep ts ys ws) b).today.orders =
        b.today.orders +
          (orders.countP (fun o => decide (o.status = "paid" ∧ ts ≤ o.created)) : Int) ∧
    (orders.foldl (dailyStep ts ys ws) b).yesterday.orders =
        b.yesterday.orders +
          (orders.countP
            (fun o => decide (o.status = "paid" ∧ ¬ts ≤ o.created ∧ ys ≤ o.created)) : Int) ∧
    (orders.foldl (dailyStep ts ys ws) b).week.orders =
        b.week.orders +
          (orders.countP (fun o => decide (o.status = "paid" ∧ ws ≤ o.created)) : Int) := by
  induction orders with
  | nil => intro b; simp
  | cons o rest ih =>
    intro b
    simp only [List.foldl_cons, List.countP_cons]
    obtain ⟨h1, h2, h3⟩ := dailyStep_orders ts ys ws b o
    obtain ⟨g1, g2, g3⟩ := ih (dailyStep ts ys ws b o)
    refine ⟨?_, ?_, ?_⟩
    · rw [g1, h1]
      by_cases hc : o.status = "paid" ∧ ts ≤ o.created <;> simp [hc] <;> omega
    · rw [g2, h2]
      by_cases hc : o.status = "paid" ∧ ¬ts ≤ o.created ∧ ys ≤ o.created <;> simp [hc] <;> omega
    · rw [g3, h3]
      by_cases hc : o.status = "paid" ∧ ws ≤ o.created <;> simp [hc] <;> omega

end LsSales

namespace DlReport

/-- Shifting an instant by whole days shifts its calendar day by the same
number of days (UTC has no discontinuities). -/
theorem strfDay_shift (now i : Int) : strfDay (now - i * usPerDay) = strfDay now - i := by
  unfold strfDay usPerDay
  have h : now - i * 86400000000 = now + (-i) * 86400000000 := by ring
  rw [h, Int.add_mul_ediv_right _ _ (by norm_num : (86400000000 : Int) ≠ 0)]
  ring

/-- Yesterday's date string is the previous calendar day. -/
theorem yesterdayD_eq (now : Int) : yesterdayD now = todayD now - 1 := by
  simpa using strfDay_shift now 1

/-- Membership in `week_dates` is exactly the 7 most recent calendar days
inclusive of today. -/
theorem mem_weekDates (now d : Int) :
    d ∈ weekDates now ↔ strfDay now - 6 ≤ d ∧ d ≤ strfDay now := by
  simp only [weekDates, List.mem_map, List.mem_range]
  constructor
  · rintro ⟨i, hi, rfl⟩
    rw [strfDay_shift]
    omega
  · rintro ⟨h1, h2⟩
    refine ⟨(strfDay now - d).toNat, by omega, ?_⟩
    rw [strfDay_shift]
    omega

/-- The paired `defaultdict` update adds the count to the `"total"` metric
when the source key is not itself `"total"`. -/
theorem bump2_total (f : String → Int) (src : String) (c : Int) (h : src ≠ "total") :
    bump2 f src c "total" = f "total" + c := by
  simp [bump2, bump, Ne.symm h]

/-- The paired update leaves `totOk` invariant for data-model sources. -/
theorem bump2_totOk {f : String → Int} (h : totOk f) (src : String) (c : Int)
    (hs : src ∈ knownSources) : totOk (bump2 f src c) := by
  simp only [knownSources, List.mem_cons, List.not_mem_nil, or_false] at hs
  rcases hs with rfl | rfl | rfl | rfl <;>
    simp [totOk, bump2, bump] at h ⊢ <;> omega

/-- Unfolding `sumCounts` over a cons cell. -/
theorem sumCounts_cons (r : Row) (rows : List Row) (p : Row → Bool) :
    sumCounts (r :: rows) p = (if p r then r.count else 0) + sumCounts rows p := by
  by_cases hp : p r <;> simp [sumCounts, hp]

/-- Effect of one `print_daily` iteration on the `"total"` metric of each
window bucket. -/
theorem dlStep_total (now : Int) (b : Buckets) (r : Row) (h : r.source ≠ "total") :
    (dailyStep now b r).today "total" =
        b.today "total" + (if r.date = todayD now then r.count else 0) ∧
    (dailyStep now b r).yesterday "total" =
        b.yesterday "total" +
          (if r.date ≠ todayD now ∧ r.date = yesterdayD now then r.count else 0) ∧
    (dailyStep now b r).week "total" =
        b.week "total" + (if r.date ∈ weekDates now then r.count else 0) ∧
    (dailyStep now b r).window "total" = b.window "total" + r.count := by
  simp only [dailyStep]
  split_ifs <;> simp_all [bump2_total _ _ _ h]

/-- The `print_daily` fold adds, into the `"total"` metric of each window
bucket, exactly the counts of the rows meeting that window's date test. -/
theorem dlFold_total (now : Int) (rows : List Row) (h : ∀ r ∈ rows, r.source ≠ "total") :
    ∀ b : Buckets,
      (rows.foldl (dailyStep now) b).today "total" =
          b.today "total" + sumCounts rows (fun r => decide (r.date = todayD now)) ∧
      (rows.foldl (dailyStep now) b).yesterday "total" =
          b.yesterday "total" +
            sumCounts rows (fun r => decide (r.date ≠ todayD now ∧ r.date = yesterdayD now)) ∧
      (rows.foldl (dailyStep now) b).week "total" =
          b.week "total" + sumCounts rows (fun r => decide (r.date ∈ weekDates now)) ∧
      (rows.foldl (dailyStep now) b).window "total" =
          b.window "total" + (rows.map Row.count).sum := by
  induction rows with
  | nil => intro b; simp [sumCounts]
  | cons r rest ih =>
    have hr : r.source ≠ "total" := h r (List.mem_cons_self r rest)
    have hrest : ∀ x ∈ rest, x.source ≠ "total" := fun x hx => h x (List.mem_cons_of_mem r hx)
    intro b
    simp only [List.foldl_cons, List.map_cons, List.sum_cons]
    obtain ⟨h1, h2, h3, h4⟩ := dlStep_total now b r hr
    obtain ⟨g1, g2, g3, g4⟩ := ih hrest (dailyStep now b r)
    refine ⟨?_, ?_, ?_, ?_⟩
    · rw [g1, h1, sumCounts_cons]
      by_cases hc : r.date = todayD now <;> simp [hc] <;> omega
    · rw [g2, h2, sumCounts_cons]
      by_cases hc : r.date ≠ todayD now ∧ r.date = yesterdayD now <;> simp [hc] <;> omega
    · rw [g3, h3, sumCounts_cons]
      by_cases hc : r.date ∈ weekDates now <;> simp [hc] <;> omega
    · rw [g4, h4]
      omega

end DlReport

/-- Concrete witness for the amended C2 theorem: a paid order created exactly
7 days before the run instant is retained by `--days 7`. -/
theorem C2_filter_orders_amended_witness :
    LsSales.filter_orders
        [{ created := wallUs LsSales.c2Now - 7 * usPerDay, status := "paid",
           subtotal_usd := 1000, currency := "USD", first_order_item := none }]
        ⟨false, some 7⟩ LsSales.c2Now =
      [{ created := wallUs LsSales.c2Now - 7 * usPerDay, status := "paid",
         subtotal_usd := 1000, currency := "USD", first_order_item := none }] :=
  C2_filter_orders_amended.2.2.2.1 LsSales.c2Now _ 7 (by decide) rfl rfl

namespace DlReport

/-- The This Week membership test, rewritten as the 7-day interval. -/
theorem weekPred_eq (now : Int) :
    (fun r : Row => decide (r.date ∈ weekDates now)) =
      (fun r : Row => decide (strfDay now - 6 ≤ r.date ∧ r.date ≤ strfDay now)) := by
  funext r
  exact decide_eq_decide.mpr (mem_weekDates now r.date)

end DlReport

/-- C3 counterexample: at a concrete run instant, a download record dated
exactly 7 calendar days before today is NOT counted in the This Week bucket
of `dl-report.py` (its `week_dates` set holds only the 7 most recent days,
`range(7)`), contradicting the claim that a record dated exactly 7 days ago
is included in both pipelines. -/
theorem C3_this_week_claim_counterexample :
    DlReport.c3Row.date = DlReport.todayD DlReport.c3Now - 7 ∧
    DlReport.c3Row.count = 1 ∧
    (DlReport.print_daily DlReport.c3Now [DlReport.c3Row]).week "total" = 0 := by
  refine ⟨by decide, by decide, by decide⟩

/-- C3 (amended): the two pipelines bound This Week differently.  In
`dl-report.py` the This Week bucket counts exactly the records whose date is
among the 7 most recent calendar days inclusive of today, and appending a
record dated exactly 7 days ago leaves the bucket unchanged (excluded).  In
`ls-sales.py` the This Week bucket counts exactly the paid orders with
`created_at >= today_start - 7 days` (local midnight minus 7 days — a span
of 8 calendar days), and an order timestamped exactly 7 days before `now`
is included. -/
theorem C3_this_week_amended :
    (∀ (now : Int) (rows : List DlReport.Row),
        (∀ r ∈ rows, r.source ≠ "total") →
        (DlReport.print_daily now rows).week "total" =
          DlReport.sumCounts rows
            (fun r =>
              decide (DlReport.strfDay now - 6 ≤ r.date ∧ r.date ≤ DlReport.strfDay now))) ∧
    (∀ (now : Int) (rows : List DlReport.Row) (r : DlReport.Row),
        r.source ≠ "total" → r.date = DlReport.strfDay now - 7 →
        (DlReport.print_daily now (rows ++ [r])).week "total" =
          (DlReport.print_daily now rows).week "total") ∧
    (∀ (w : PyDateTime) (off : Int) (orders : List LsSales.Order),
        (LsSales.print_daily w off orders).week.orders =
          (orders.countP (fun o =>
            decide (o.status = "paid" ∧
              LsSales.todayStartUs w off - 7 * usPerDay ≤ o.created)) : Int)) ∧
    (∀ (w : PyDateTime) (off : Int) (o : LsSales.Order),
        0 ≤ timeOfDayUs w → o.status = "paid" →
        o.created = (wallUs w - off) - 7 * usPerDay →
        (LsSales.print_daily w off [o]).week.orders = 1) := by
  refine ⟨?_, ?_, ?_, ?_⟩
  · intro now rows h
    have := (DlReport.dlFold_total now rows h ⟨fun _ => 0, fun _ => 0, fun _ => 0, fun _ => 0⟩).2.2.1
    rw [DlReport.print_daily, this, DlReport.weekPred_eq]
    ring
  · intro now rows r hs hd
    have hfold : DlReport.print_daily now (rows ++ [r]) =
        DlReport.dailyStep now (DlReport.print_daily now rows) r := by
      simp [DlReport.print_daily, List.foldl_append]
    have hmem : r.date ∉ DlReport.weekDates now := by
      rw [DlReport.mem_weekDates]
      omega
    rw [hfold, (DlReport.dlStep_total now _ r hs).2.2.1, if_neg hmem]
    ring
  · intro w off orders
    have := (LsSales.dailyFold_orders (LsSales.todayStartUs w off)
      (LsSales.todayStartUs w off - usPerDay) (LsSales.todayStartUs w off - 7 * usPerDay)
      orders ⟨LsSales.emptyB, LsSales.emptyB, LsSales.emptyB, LsSales.emptyB⟩).2.2
    rw [LsSales.print_daily, this]
    simp [LsSales.emptyB]
  · intro w off o h0 hs hc
    have := (LsSales.dailyFold_orders (LsSales.todayStartUs w off)
      (LsSales.todayStartUs w off - usPerDay) (LsSales.todayStartUs w off - 7 * usPerDay)
      [o] ⟨LsSales.emptyB, LsSales.emptyB, LsSales.emptyB, LsSales.emptyB⟩).2.2
    rw [LsSales.print_daily, this]
    have hcond : o.status = "paid" ∧ LsSales.todayStartUs w off - 7 * usPerDay ≤ o.created := by
      refine ⟨hs, ?_⟩
      simp only [LsSales.todayStartUs, wallUs, timeOfDayUs, usPerDay] at hc ⊢
      simp only [timeOfDayUs, usPerDay] at h0
      omega
    simp [LsSales.emptyB, List.countP, List.countP.go, hcond]

/-- Concrete witness for the amended C3 theorem: at a warm run instant with
zero UTC offset, a paid order created exactly 7 days before `now` is counted
in the This Week bucket of `ls-sales.py`. -/
theorem C3_this_week_amended_witness :
    (LsSales.print_daily LsSales.c2Now 0
        [{ created := (wallUs LsSales.c2Now - 0) - 7 * usPerDay, status := "paid",
           subtotal_usd := 1000, currency := "USD",
           first_order_item := none }]).week.orders = 1 :=
  C3_this_week_amended.2.2.2 LsSales.c2Now 0 _ (by decide) rfl rfl

/-- C4: in the daily breakdown of `dl-report.py`, a record dated today has
its count added simultaneously to the Today bucket, the This Week bucket and
the rolling-window bucket (the three membership tests are evaluated
independently). -/
theorem C4_today_counts_in_all_windows (now : Int) (rows : List DlReport.Row)
    (r : DlReport.Row) (hd : r.date = DlReport.todayD now) (hs : r.source ≠ "total") :
    (DlReport.print_daily now (rows ++ [r])).today "total" =
        (DlReport.print_daily now rows).today "total" + r.count ∧
    (DlReport.print_daily now (rows ++ [r])).week "total" =
        (DlReport.print_daily now rows).week "total" + r.count ∧
    (DlReport.print_daily now (rows ++ [r])).window "total" =
        (DlReport.print_daily now rows).window "total" + r.count := by
  have hfold : DlReport.print_daily now (rows ++ [r]) =
      DlReport.dailyStep now (DlReport.print_daily now rows) r := by
    simp [DlReport.print_daily, List.foldl_append]
  obtain ⟨h1, h2, h3, h4⟩ := DlReport.dlStep_total now (DlReport.print_daily now rows) r hs
  have hmem : r.date ∈ DlReport.weekDates now := by
    rw [DlReport.mem_weekDates]
    simp only [DlReport.todayD] at hd
    omega
  rw [hfold]
  exact ⟨by rw [h1, if_pos hd], by rw [h3, if_pos hmem], h4⟩

/-- Concrete witness for C4: a sparkle download dated today lands in all
three windows at once. -/
theorem C4_today_counts_in_all_windows_witness :
    (DlReport.print_daily DlReport.c3Now
        ([] ++ [{ date := 19900, app := "sanebar", version := "1.0", source := "sparkle",
                  count := 2 : DlReport.Row }])).today "total" =
      (DlReport.print_daily DlReport.c3Now []).today "total" + 2 :=
  (C4_today_counts_in_all_windows DlReport.c3Now [] _ (by decide) (by decide)).1

/-- C5: the spec requires missing dimension values to aggregate under the
sentinels "Unknown"/"Default" without raising, and the code intends this
(`or {}` / `or "Default"` guards on the adjacent fields), but a
`product_name` that is present and `null` escapes the `dict.get` default:
the order aggregates under Python `None` instead of `"Unknown"`, and
`print_products` then raises `TypeError` slicing `None[:29]`.  This theorem
evaluates the embedding at the failing input. -/
theorem C5_null_product_name_divergence :
    LsSales.product_key LsSales.c5OrderAbsent = some "Unknown" ∧
    LsSales.product_key LsSales.c5Order = none ∧
    LsSales.product_key LsSales.c5Order ≠ some "Unknown" ∧
    LsSales.printProductsLabels [LsSales.c5Order] = Except.error "TypeError" ∧
    LsSales.variant_key LsSales.c5Order = "None | Default" := by
  exact ⟨rfl, rfl, by decide, rfl, rfl⟩

/-- C6 counterexample: in `ls-sales.py`, a malformed response on page 2
after a full first page is not fatal: `fetch_orders` prints an error and
breaks, returning the 50 orders of page 1, which the caller then aggregates
(the process exits 0).  The claim that partial results are discarded and the
process exits non-zero is false for this pipeline. -/
theorem C6_malformed_not_fatal_counterexample :
    LsSales.fetch_orders [some (List.replicate 50 LsSales.c2Order), none] =
      List.replicate 50 LsSales.c2Order ∧
    (List.replicate 50 LsSales.c2Order : List LsSales.Order) ≠ [] := by
  refine ⟨rfl, by simp⟩

namespace LsSales

/-- The pagination loop, fed full pages followed by a malformed body,
returns the accumulated full pages. -/
theorem fetchPages_full (ps : List (List Order)) (rest : List (Option (List Order)))
    (h : ∀ p ∈ ps, p.length = 50) :
    ∀ acc, fetchPages (ps.map some ++ none :: rest) acc = acc ++ ps.flatten := by
  induction ps with
  | nil => intro acc; simp [fetchPages]
  | cons p ps ih =>
    intro acc
    have hp : p.length = 50 := h p (List.mem_cons_self p ps)
    simp only [List.map_cons, List.cons_append, fetchPages, hp]
    rw [if_neg (by omega)]
    simp only [List.append_eq]
    rw [ih (fun q hq => h q (List.mem_cons_of_mem p hq)) (acc ++ p)]
    simp [List.flatten]

end LsSales

/-- C6 (amended): in `dl-report.py` a malformed response is fatal
(`fetch_stats` prints the error and exits non-zero, modelled as
`Except.error`); in `ls-sales.py` a malformed response on page `p+1` merely
stops pagination: the orders of the `p` complete earlier pages are returned
and aggregated, and the run continues (exit 0). -/
theorem C6_malformed_response_amended :
    DlReport.fetch_stats none = Except.error "Error: Bad API response" ∧
    (∀ d : DlReport.Stats, DlReport.fetch_stats (some d) = Except.ok d) ∧
    (∀ (ps : List (List LsSales.Order)) (rest : List (Option (List LsSales.Order))),
        (∀ p ∈ ps, p.length = 50) →
        LsSales.fetch_orders (ps.map some ++ none :: rest) = ps.flatten) := by
  refine ⟨rfl, fun d => rfl, ?_⟩
  intro ps rest h
  rw [LsSales.fetch_orders, LsSales.fetchPages_full ps rest h []]
  simp

/-- Concrete witness for the amended C6 theorem: one full page then a
malformed body yields exactly the first page's 50 orders. -/
theorem C6_malformed_response_amended_witness :
    LsSales.fetch_orders ([List.replicate 50 LsSales.c2Order].map some ++ none :: []) =
      List.flatten [List.replicate 50 LsSales.c2Order] :=
  C6_malformed_response_amended.2.2 [List.replicate 50 LsSales.c2Order] [] (by simp)

/-- C10: the Today and Yesterday buckets are disjoint in both pipelines.
In `dl-report.py` Today counts rows dated today and Yesterday counts rows
dated yesterday (the `elif` never fires for a today row, and the two dates
differ), so no record is counted in both.  In `ls-sales.py` Today counts
paid orders with `created >= today_start` and Yesterday those with
`yesterday_start <= created < today_start`, two disjoint intervals. -/
theorem C10_today_yesterday_disjoint :
    (∀ (now : Int) (rows : List DlReport.Row),
        (∀ r ∈ rows, r.source ≠ "total") →
        (DlReport.print_daily now rows).today "total" =
            DlReport.sumCounts rows (fun r => decide (r.date = DlReport.todayD now)) ∧
        (DlReport.print_daily now rows).yesterday "total" =
            DlReport.sumCounts rows (fun r => decide (r.date = DlReport.yesterdayD now)) ∧
        ∀ r : DlReport.Row,
          ¬(r.date = DlReport.todayD now ∧ r.date = DlReport.yesterdayD now)) ∧
    (∀ (w : PyDateTime) (off : Int) (orders : List LsSales.Order),
        (LsSales.print_daily w off orders).today.orders =
            (orders.countP (fun o =>
              decide (o.status = "paid" ∧ LsSales.todayStartUs w off ≤ o.created)) : Int) ∧
        (LsSales.print_daily w off orders).yesterday.orders =
            (orders.countP (fun o =>
              decide (o.status = "paid" ∧
                LsSales.todayStartUs w off - usPerDay ≤ o.created ∧
                o.created < LsSales.todayStartUs w off)) : Int) ∧
        ∀ o : LsSales.Order,
          ¬(LsSales.todayStartUs w off ≤ o.created ∧
            LsSales.todayStartUs w off - usPerDay ≤ o.created ∧
            o.created < LsSales.todayStartUs w off)) := by
  constructor
  · intro now rows h
    obtain ⟨h1, h2, h3, h4⟩ :=
      DlReport.dlFold_total now rows h ⟨fun _ => 0, fun _ => 0, fun _ => 0, fun _ => 0⟩
    refine ⟨?_, ?_, ?_⟩
    · rw [DlReport.print_daily, h1]
      ring
    · rw [DlReport.print_daily, h2]
      have hpred : (fun r : DlReport.Row =>
            decide (r.date ≠ DlReport.todayD now ∧ r.date = DlReport.yesterdayD now)) =
          (fun r : DlReport.Row => decide (r.date = DlReport.yesterdayD now)) := by
        funext r
        refine decide_eq_decide.mpr ?_
        have := DlReport.yesterdayD_eq now
        constructor
        · rintro ⟨_, hy⟩; exact hy
        · intro hy; exact ⟨by omega, hy⟩
      rw [hpred]
      ring
    · intro r ⟨hta, hya⟩
      have := DlReport.yesterdayD_eq now
      omega
  · intro w off orders
    obtain ⟨h1, h2, h3⟩ := LsSales.dailyFold_orders (LsSales.todayStartUs w off)
      (LsSales.todayStartUs w off - usPerDay) (LsSales.todayStartUs w off - 7 * usPerDay)
      orders ⟨LsSales.emptyB, LsSales.emptyB, LsSales.emptyB, LsSales.emptyB⟩
    refine ⟨?_, ?_, ?_⟩
    · rw [LsSales.print_daily, h1]
      simp [LsSales.emptyB]
    · rw [LsSales.print_daily, h2]
      have hpred : (fun o : LsSales.Order =>
            decide (o.status = "paid" ∧ ¬LsSales.todayStartUs w off ≤ o.created ∧
              LsSales.todayStartUs w off - usPerDay ≤ o.created)) =
          (fun o : LsSales.Order =>
            decide (o.status = "paid" ∧
              LsSales.todayStartUs w off - usPerDay ≤ o.created ∧
              o.created < LsSales.todayStartUs w off)) := by
        funext o
        refine decide_eq_decide.mpr ?_
        constructor
        · rintro ⟨hp, hn, hy⟩; exact ⟨hp, hy, by omega⟩
        · rintro ⟨hp, hy, hlt⟩; exact ⟨hp, by omega, hy⟩
      rw [hpred]
      simp [LsSales.emptyB]
    · intro o ⟨hta, _, hlt⟩
      omega

/-- Concrete witness for C10: at a concrete run instant, the Today bucket of
`dl-report.py` holds none of the count of a record dated a week earlier. -/
theorem C10_today_yesterday_disjoint_witness :
    (DlReport.print_daily DlReport.c3Now [DlReport.c3Row]).today "total" = 0 := by
  have h := (C10_today_yesterday_disjoint.1 DlReport.c3Now [DlReport.c3Row] (by decide)).1
  rw [h]
  decide

namespace DlReport

/-- One `print_daily` iteration preserves the total-consistency of all four
window buckets for data-model sources. -/
theorem dlStep_totOk (now : Int) (b : Buckets) (r : Row) (hs : r.source ∈ knownSources)
    (t1 : totOk b.today) (t2 : totOk b.yesterday) (t3 : totOk b.week) (t4 : totOk b.window) :
    totOk (dailyStep now b r).today ∧ totOk (dailyStep now b r).yesterday ∧
    totOk (dailyStep now b r).week ∧ totOk (dailyStep now b r).window := by
  simp only [dailyStep]
  split_ifs <;>
    refine ⟨?_, ?_, ?_, ?_⟩ <;>
    first
      | assumption
      | exact bump2_totOk t1 _ _ hs
      | exact bump2_totOk t2 _ _ hs
      | exact bump2_totOk t3 _ _ hs
      | exact bump2_totOk t4 _ _ hs

/-- The `print_daily` fold preserves total-consistency of all four window
buckets. -/
theorem dlFold_totOk (now : Int) (rows : List Row)
    (h : ∀ r ∈ rows, r.source ∈ knownSources) : ∀ b : Buckets,
    totOk b.today → totOk b.yesterday → totOk b.week → totOk b.window →
    totOk ((rows.foldl (dailyStep now) b).today) ∧
    totOk ((rows.foldl (dailyStep now) b).yesterday) ∧
    totOk ((rows.foldl (dailyStep now) b).week) ∧
    totOk ((rows.foldl (dailyStep now) b).window) := by
  induction rows with
  | nil => intro b t1 t2 t3 t4; exact ⟨t1, t2, t3, t4⟩
  | cons r rest ih =>
    intro b t1 t2 t3 t4
    have hr := h r (List.mem_cons_self r rest)
    obtain ⟨s1, s2, s3, s4⟩ := dlStep_totOk now b r hr t1 t2 t3 t4
    exact ih (fun x hx => h x (List.mem_cons_of_mem r hx)) (dailyStep now b r) s1 s2 s3 s4

/-- The `print_by_app` fold preserves total-consistency of every app's inner
bucket. -/
theorem byApp_totOk (rows : List Row) (h : ∀ r ∈ rows, r.source ∈ knownSources) :
    ∀ m : String → String → Int, (∀ a, totOk (m a)) →
    ∀ a, totOk (rows.foldl
      (fun m r => fun a => if a = r.app then bump2 (m a) r.source r.count else m a) m a) := by
  induction rows with
  | nil => intro m hm a; exact hm a
  | cons r rest ih =>
    intro m hm a
    refine ih (fun x hx => h x (List.mem_cons_of_mem r hx)) _ (fun a2 => ?_) a
    by_cases ha : a2 = r.app
    · subst ha
      simpa using bump2_totOk (hm r.app) r.source r.count (h r (List.mem_cons_self r rest))
    · simpa [ha] using hm a2

end DlReport

/-- C7: for rows with data-model sources and non-negative counts, the
`"total"` metric of every aggregate bucket equals the sum of its per-source
sub-metrics (the sparkle/homebrew/website/unknown columns): this holds for
each of the four window buckets of the daily view and for every app key of
the by-app view. -/
theorem C7_total_is_sum_of_submetrics (now : Int) (rows : List DlReport.Row)
    (hsrc : ∀ r ∈ rows, r.source ∈ DlReport.knownSources)
    (hcnt : ∀ r ∈ rows, 0 ≤ r.count) :
    DlReport.totOk ((DlReport.print_daily now rows).today) ∧
    DlReport.totOk ((DlReport.print_daily now rows).yesterday) ∧
    DlReport.totOk ((DlReport.print_daily now rows).week) ∧
    DlReport.totOk ((DlReport.print_daily now rows).window) ∧
    ∀ app, DlReport.totOk (DlReport.by_app rows app) := by
  have hz : DlReport.totOk (fun _ : String => (0 : Int)) := by simp [DlReport.totOk]
  obtain ⟨h1, h2, h3, h4⟩ := DlReport.dlFold_totOk now rows hsrc
    ⟨fun _ => 0, fun _ => 0, fun _ => 0, fun _ => 0⟩ hz hz hz hz
  exact ⟨h1, h2, h3, h4, DlReport.byApp_totOk rows hsrc (fun _ _ => 0) (fun _ => hz)⟩

/-- Concrete witness for C7: the rolling-window bucket is total-consistent at
a concrete input. -/
theorem C7_total_is_sum_of_submetrics_witness :
    DlReport.totOk ((DlReport.print_daily DlReport.c3Now [DlReport.c3Row]).window) :=
  (C7_total_is_sum_of_submetrics DlReport.c3Now [DlReport.c3Row]
    (by decide) (by decide)).2.2.2.1

namespace DlReport

/-- The version-key accumulation keeps the key list duplicate-free. -/
theorem versionKeysAux_nodup (rows : List Row) :
    ∀ ks : List String, ks.Nodup →
      (rows.foldl (fun ks r => if versionKey r ∈ ks then ks else ks ++ [versionKey r]) ks).Nodup := by
  induction rows with
  | nil => intro ks h; exact h
  | cons r rest ih =>
    intro ks h
    simp only [List.foldl_cons]
    apply ih
    by_cases hm : versionKey r ∈ ks
    · simpa [hm]
    · rw [if_neg hm]
      simp [List.nodup_append, h, hm]

/-- The `versions` dict has duplicate-free keys. -/
theorem versionKeys_nodup (rows : List Row) : (versionKeys rows).Nodup :=
  versionKeysAux_nodup rows [] List.nodup_nil

end DlReport

/-- C8: the by-version view sorts the grouped keys by total count descending
and truncates to the top 20: when there are 25 keys with pairwise distinct
totals, the output has exactly 20 keys, is strictly descending by total,
draws only from the grouped keys, and every omitted key has a strictly
smaller total than every key shown. -/
theorem C8_by_version_top20 (rows : List DlReport.Row)
    (hlen : (DlReport.versionKeys rows).length = 25)
    (hdist : ∀ k1 ∈ DlReport.versionKeys rows, ∀ k2 ∈ DlReport.versionKeys rows,
        k1 ≠ k2 → DlReport.versionCount rows k1 ≠ DlReport.versionCount rows k2) :
    (DlReport.by_version rows).length = 20 ∧
    (DlReport.by_version rows).Pairwise
      (fun a b => DlReport.versionCount rows b < DlReport.versionCount rows a) ∧
    (∀ k ∈ DlReport.by_version rows, k ∈ DlReport.versionKeys rows) ∧
    (∀ k ∈ DlReport.versionKeys rows, k ∉ DlReport.by_version rows →
      ∀ k2 ∈ DlReport.by_version rows,
        DlReport.versionCount rows k < DlReport.versionCount rows k2) := by
  haveI htot : IsTotal String
      (fun a b => DlReport.versionCount rows b ≤ DlReport.versionCount rows a) :=
    ⟨fun a b => le_total _ _⟩
  haveI htr : IsTrans String
      (fun a b => DlReport.versionCount rows b ≤ DlReport.versionCount rows a) :=
    ⟨fun a b c hab hbc => le_trans hbc hab⟩
  have hnd : (DlReport.versionKeys rows).Nodup := DlReport.versionKeys_nodup rows
  have hperm := List.perm_insertionSort
    (fun a b => DlReport.versionCount rows b ≤ DlReport.versionCount rows a)
    (DlReport.versionKeys rows)
  have hsorted := List.sorted_insertionSort
    (fun a b => DlReport.versionCount rows b ≤ DlReport.versionCount rows a)
    (DlReport.versionKeys rows)
  have hndS : (List.insertionSort
      (fun a b => DlReport.versionCount rows b ≤ DlReport.versionCount rows a)
      (DlReport.versionKeys rows)).Nodup := hperm.nodup_iff.mpr hnd
  have hstrict : (List.insertionSort
      (fun a b => DlReport.versionCount rows b ≤ DlReport.versionCount rows a)
      (DlReport.versionKeys rows)).Pairwise
        (fun a b => DlReport.versionCount rows b < DlReport.versionCount rows a) := by
    have hand := List.Pairwise.and hsorted hndS
    refine hand.imp_of_mem ?_
    intro a b ha hb hc
    have ha2 : a ∈ DlReport.versionKeys rows := hperm.subset ha
    have hb2 : b ∈ DlReport.versionKeys rows := hperm.subset hb
    exact lt_of_le_of_ne hc.1 (fun he => hdist a ha2 b hb2 hc.2 he.symm)
  refine ⟨?_, ?_, ?_, ?_⟩
  · rw [DlReport.by_version, List.length_take, hperm.length_eq, hlen]
    decide
  · exact List.Pairwise.take hstrict
  · intro k hk
    exact hperm.subset (List.mem_of_mem_take hk)
  · intro k hk hkn k2 hk2
    have hkS : k ∈ List.insertionSort
        (fun a b => DlReport.versionCount rows b ≤ DlReport.versionCount rows a)
        (DlReport.versionKeys rows) := hperm.mem_iff.mpr hk
    have hkD : k ∈ (List.insertionSort
        (fun a b => DlReport.versionCount rows b ≤ DlReport.versionCount rows a)
        (DlReport.versionKeys rows)).drop 20 := by
      have hsplit := List.take_append_drop 20 (List.insertionSort
        (fun a b => DlReport.versionCount rows b ≤ DlReport.versionCount rows a)
        (DlReport.versionKeys rows))
      rw [← hsplit] at hkS
      rcases List.mem_append.mp hkS with h | h
      · exact absurd h hkn
      · exact h
    exact hstrict.rel_of_mem_take_of_mem_drop hk2 hkD

/-- Concrete witness for C8: 25 keys with strictly decreasing totals yield a
20-element output. -/
theorem C8_by_version_top20_witness : (DlReport.by_version DlReport.c8Rows).length = 20 :=
  (C8_by_version_top20 DlReport.c8Rows (by decide) (by decide)).1

end SaneProcess

